import Mathlib

/-!
Shallow embedding of `download_sample_images.py`: a sequential
fetch / package / cleanup pipeline over a fixed list of employee records.
Network and filesystem effects are modelled by explicit oracles and an
explicit filesystem state, so every function below is executable.
-/

/-- Byte strings are modelled as lists of naturals. -/
def Bytes : Type := List Nat

instance : DecidableEq Bytes := inferInstanceAs (DecidableEq (List Nat))

instance : Repr Bytes := inferInstanceAs (Repr (List Nat))

/-- One employee record: identifier, display name and source image URL
(the dicts in the `EMPLOYEES` list of the source). -/
structure Record where
  id : String
  name : String
  url : String
deriving DecidableEq, Repr

/-- The fixed in-memory list `EMPLOYEES` from the source, verbatim. -/
def EMPLOYEES : List Record := [
  ⟨"24EMP001", "John Smith",
    "https://images.unsplash.com/photo-1560250097-0b93528c311a?w=800&h=800&fit=crop&q=80"⟩,
  ⟨"24EMP002", "Sarah Johnson",
    "https://images.unsplash.com/photo-1573496359142-b8d87734a5a2?w=800&h=800&fit=crop&q=80"⟩,
  ⟨"24EMP003", "Michael Brown",
    "https://images.unsplash.com/photo-1519085360753-af0119f7cbe7?w=800&h=800&fit=crop&q=80"⟩,
  ⟨"24EMP004", "Emily Davis",
    "https://images.unsplash.com/photo-1580489944761-15a19d654956?w=800&h=800&fit=crop&q=80"⟩,
  ⟨"15EMP005", "David Wilson",
    "https://images.unsplash.com/photo-1472099645785-5658abf4ff4e?w=800&h=800&fit=crop&q=80"⟩,
  ⟨"15EMP006", "Lisa Anderson",
    "https://images.unsplash.com/photo-1607746882042-944635dfe10e?w=800&h=800&fit=crop&q=80"⟩,
  ⟨"22EMP007", "James Martinez",
    "https://images.unsplash.com/photo-1507003211169-0a1dd7228f2d?w=800&h=800&fit=crop&q=80"⟩,
  ⟨"22EMP008", "Jennifer Taylor",
    "https://images.unsplash.com/photo-1438761681033-6461ffad8d80?w=800&h=800&fit=crop&q=80"⟩,
  ⟨"23EMP009", "Robert Lee",
    "https://images.unsplash.com/photo-1500648767791-00dcc994a43e?w=800&h=800&fit=crop&q=80"⟩,
  ⟨"23EMP010", "Mary White",
    "https://images.unsplash.com/photo-1544005313-94ddf0286df2?w=800&h=800&fit=crop&q=80"⟩]

/-- Outcome of the body of the per-record try-block: either the file is
fully written with the response bytes, or some exception (network error,
HTTP error, local I/O error) is raised with a message; a failed attempt
may leave a truncated file behind (`junk`), which is never recorded as a
success. -/
inductive FetchOutcome where
  | ok (content : Bytes)
  | fail (msg : String) (junk : Option Bytes)
deriving DecidableEq, Repr

/-- An environment assigns to each record the outcome of attempting it. -/
def Env : Type := Record → FetchOutcome

/-- True when the attempt succeeded. -/
def fetchOk : FetchOutcome → Bool
  | .ok _ => true
  | .fail _ _ => false

/-- An HTTP request as built by `urllib.request.Request(url, headers=...)`. -/
structure HttpRequest where
  url : String
  headers : List (String × String)
deriving DecidableEq, Repr

/-- The request built at line 89 of the source:
`Request(url, headers={'User-Agent': 'Mozilla/5.0'})`. -/
def mkRequest (url : String) : HttpRequest :=
  { url := url, headers := [("User-Agent", "Mozilla/5.0")] }

/-- Observable I/O events of the fetch loop, used to express ordering. -/
inductive Event where
  | started (r : Record)
  | requested (q : HttpRequest)
  | finished (r : Record) (success : Bool)
deriving DecidableEq, Repr

/-- Filesystem state: whether the scratch directory exists, its files
(full path paired with content, in creation order), and the archive
(`none` until `create_zip` writes it). -/
structure FS where
  tempDirExists : Bool
  tempFiles : List (String × Bytes)
  zipFile : Option (List (String × Bytes))
deriving DecidableEq, Repr

/-- The filesystem before the program runs. -/
def emptyFS : FS := ⟨false, [], none⟩

/-- Write `b` to path `p`, truncating any existing file (mode `wb`). -/
def writeAssoc : List (String × Bytes) → String → Bytes → List (String × Bytes)
  | [], p, b => [(p, b)]
  | (q, c) :: rest, p, b =>
      if q = p then (p, b) :: rest else (q, c) :: writeAssoc rest p b

/-- Write a file into the scratch directory. -/
def fsWrite (fs : FS) (p : String) (b : Bytes) : FS :=
  { fs with tempFiles := writeAssoc fs.tempFiles p b }

/-- Content of the file at path `p`, if present. -/
def lookupFile (fs : FS) (p : String) : Option Bytes :=
  fs.tempFiles.lookup p

/-- The scratch directory name, `Path('temp_employee_photos')`. -/
def tempDirPath : String := "temp_employee_photos"

/-- The scratch path for a record: `temp_dir / f"{emp_id}.jpg"`. -/
def filePathOf (r : Record) : String :=
  tempDirPath ++ "/" ++ (r.id ++ ".jpg")

/-- `Path.name`: the final path component, the characters after the last
slash (the whole string when no slash occurs). -/
def pathBasename (p : String) : String :=
  ⟨(p.data.reverse.takeWhile (fun c => !(c == '/'))).reverse⟩

/-- True when a name holds no directory separator. -/
def noDirComponent (s : String) : Bool :=
  s.data.all (fun c => !(c == '/'))

/-- Progress message printed before each attempt. -/
def downloadingMsg (r : Record) : String :=
  "Downloading " ++ r.name ++ " (" ++ r.id ++ ")..."

/-- Success message for one record. -/
def savedMsg (fn : String) : String := "Saved as " ++ fn

/-- Per-record failure report printed by the except-branch of the loop. -/
def errorMsg (r : Record) (e : String) : String :=
  "Error downloading " ++ r.name ++ ": " ++ e

/-- Message printed by `create_zip` when the success list is empty. -/
def noImagesMsg : String := "No images downloaded. Cannot create ZIP file."

/-- Message printed by `create_zip` before writing the archive. -/
def creatingZipMsg : String := "Creating ZIP file: employee_photos.zip..."

/-- Message printed by `create_zip` for each archive entry. -/
def addedMsg (n : String) : String := "Added " ++ n

/-- Message printed by `create_zip` on completion. -/
def zipDoneMsg : String := "ZIP file created successfully!"

/-- Summary line `Total images: k/n`. -/
def totalMsg (k n : Nat) : String :=
  "Total images: " ++ toString k ++ "/" ++ toString n

/-- Message printed when `cleanup` starts. -/
def cleaningMsg : String := "Cleaning up temporary files..."

/-- Message printed when `cleanup` succeeds. -/
def cleanupDoneMsg : String := "Cleanup complete"

/-- Warning printed by the except-branch of `cleanup`. -/
def warnMsg (e : String) : String := "Cleanup warning: " ++ e

/-- Message printed by `main` when the success list is empty. -/
def failedAllMsg : String := "Failed to download any images."

/-- Message printed by the `KeyboardInterrupt` handler of `main`. -/
def cancelledMsg : String := "Download cancelled by user."

/-- Message printed by the generic exception handler of `main`. -/
def topErrorMsg (m : String) : String := "An error occurred: " ++ m

/-- Accumulated state of the fetch loop: filesystem, the
`downloaded_files` list of paths, the printed log and the I/O trace. -/
structure DLState where
  fs : FS
  downloaded : List String
  log : List String
  trace : List Event
deriving Repr

/-- Body of the `for employee in EMPLOYEES` loop: build the request,
attempt the download, on success write the file and append its path to
`downloaded_files`, on failure report and fall through to the next
record. -/
def attemptDownload (env : Env) (st : DLState) (r : Record) : DLState :=
  let filename := r.id ++ ".jpg"
  let filepath := tempDirPath ++ "/" ++ filename
  let req := mkRequest r.url
  match env r with
  | .ok content =>
      { fs := fsWrite st.fs filepath content
        downloaded := st.downloaded ++ [filepath]
        log := st.log ++ [downloadingMsg r, savedMsg filename]
        trace := st.trace ++ [.started r, .requested req, .finished r true] }
  | .fail msg junk =>
      { fs := match junk with
              | some b => fsWrite st.fs filepath b
              | none => st.fs
        downloaded := st.downloaded
        log := st.log ++ [downloadingMsg r, errorMsg r msg]
        trace := st.trace ++ [.started r, .requested req, .finished r false] }

/-- The fetch loop over a list of records. -/
def runDownloads (env : Env) : List Record → DLState → DLState
  | [], st => st
  | r :: rs, st => runDownloads env rs (attemptDownload env st r)

/-- `download_images()`: create the scratch directory (`exist_ok=True`)
and attempt every record in order; the Python return value
`(temp_dir, downloaded_files)` is `(tempDirPath, result.downloaded)`. -/
def download_images (env : Env) (fs0 : FS) : DLState :=
  runDownloads env EMPLOYEES
    { fs := { fs0 with tempDirExists := true }
      downloaded := []
      log := []
      trace := [] }

/-- Records of `EMPLOYEES` whose fetch succeeds under `env`. -/
def successes (env : Env) : List Record :=
  EMPLOYEES.filter (fun r => fetchOk (env r))

/-- `create_zip(temp_dir, downloaded_files)`: skip (with a report) when
the list is empty, otherwise write one archive entry per path, named by
the bare filename, in list order. Returns the new filesystem and the
printed lines. -/
def create_zip (downloaded_files : List String) (fs : FS) :
    FS × List String :=
  if downloaded_files.isEmpty then
    (fs, [noImagesMsg])
  else
    ({ fs with zipFile := some (downloaded_files.map
          (fun p => (pathBasename p, (lookupFile fs p).getD []))) },
     [creatingZipMsg]
       ++ downloaded_files.map (fun p => addedMsg (pathBasename p))
       ++ [zipDoneMsg, totalMsg downloaded_files.length EMPLOYEES.length])

/-- Unlink the scratch files in order; stop at the first path whose
unlink raises (oracle `unlinkOk` is false), returning the failing path
and the files still on disk. -/
def deleteFiles (unlinkOk : String → Bool) :
    List (String × Bytes) → Option String × List (String × Bytes)
  | [] => (none, [])
  | (f, b) :: rest =>
      if unlinkOk f then deleteFiles unlinkOk rest
      else (some f, (f, b) :: rest)

/-- `cleanup(temp_dir)`: unlink every file then remove the directory,
inside one try-block; the first raising operation aborts the rest, is
reported as a warning, and nothing propagates. Oracles `unlinkOk` and
`rmdirOk` say which deletions succeed. -/
def cleanup (unlinkOk : String → Bool) (rmdirOk : Bool) (fs : FS) :
    FS × List String :=
  match deleteFiles unlinkOk fs.tempFiles with
  | (some f, rest) =>
      ({ fs with tempFiles := rest },
       [cleaningMsg, warnMsg ("unlink failed: " ++ f)])
  | (none, _) =>
      if rmdirOk then
        ({ fs with tempFiles := [], tempDirExists := false },
         [cleaningMsg, cleanupDoneMsg])
      else
        ({ fs with tempFiles := [] },
         [cleaningMsg, warnMsg "rmdir failed"])

/-- Phases of `main` at which an asynchronous exception may arrive. -/
inductive Phase where
  | fetchPhase
  | packagePhase
  | cleanupPhase
deriving DecidableEq, Repr

/-- Exceptions reaching the top-level handlers of `main`. -/
inductive PyExc where
  | keyboardInterrupt
  | otherExc (msg : String)
deriving DecidableEq, Repr

/-- How the run ended. -/
inductive MainOutcome where
  | completed
  | earlyReturn
  | interrupted
  | caught (msg : String)
deriving DecidableEq, Repr

/-- Result of a whole run: final filesystem, printed log, ending. -/
structure RunResult where
  fs : FS
  log : List String
  outcome : MainOutcome
deriving Repr

/-- The exception injected at phase `p`, if any. -/
def raiseAt (exc : Option (Phase × PyExc)) (p : Phase) : Option PyExc :=
  match exc with
  | some (q, e) => if q = p then some e else none
  | none => none

/-- The try-block of `main`: fetch, early return on an empty success
list, package, cleanup. An injected exception raises at the start of its
phase, with the state accumulated so far. -/
def phasesBody (env : Env) (unlinkOk : String → Bool) (rmdirOk : Bool)
    (exc : Option (Phase × PyExc)) :
    Except (PyExc × FS × List String) (FS × List String × MainOutcome) :=
  match raiseAt exc .fetchPhase with
  | some e => .error (e, emptyFS, [])
  | none =>
    let st := download_images env emptyFS
    if st.downloaded.isEmpty then
      .ok (st.fs, st.log ++ [failedAllMsg], .earlyReturn)
    else
      match raiseAt exc .packagePhase with
      | some e => .error (e, st.fs, st.log)
      | none =>
        let z := create_zip st.downloaded st.fs
        match raiseAt exc .cleanupPhase with
        | some e => .error (e, z.1, st.log ++ z.2)
        | none =>
          let c := cleanup unlinkOk rmdirOk z.1
          .ok (c.1, st.log ++ z.2 ++ c.2, .completed)

/-- `main()`: run the phases under the two top-level handlers; a
`KeyboardInterrupt` and any other exception are each caught and
reported, and the function returns normally either way. -/
def mainFn (env : Env) (unlinkOk : String → Bool) (rmdirOk : Bool)
    (exc : Option (Phase × PyExc)) : RunResult :=
  match phasesBody env unlinkOk rmdirOk exc with
  | .ok (fs, log, out) => ⟨fs, log, out⟩
  | .error (.keyboardInterrupt, fs, log) =>
      ⟨fs, log ++ [cancelledMsg], .interrupted⟩
  | .error (.otherExc m, fs, log) =>
      ⟨fs, log ++ [topErrorMsg m], .caught m⟩

/-! ### Helper characterizations of the fetch loop -/

/-- Concatenation of the images of `f` over a list. -/
def concatMap {α β : Type} (f : α → List β) : List α → List β
  | [] => []
  | x :: xs => f x ++ concatMap f xs

/-- Paths accumulated by the loop over `l`. -/
def dlOf (env : Env) (l : List Record) : List String :=
  l.filterMap (fun r => if fetchOk (env r) then some (filePathOf r) else none)

/-- Events emitted for one record. -/
def traceOf (env : Env) (r : Record) : List Event :=
  [.started r, .requested (mkRequest r.url), .finished r (fetchOk (env r))]

/-- Lines printed for one record. -/
def logOf (env : Env) (r : Record) : List String :=
  match env r with
  | .ok _ => [downloadingMsg r, savedMsg (r.id ++ ".jpg")]
  | .fail m _ => [downloadingMsg r, errorMsg r m]

/-- The trace consists of consecutive non-overlapping blocks: each
record is started, its request issued and its attempt finished before
any later record is started. -/
def wellBracketed : List Event → Bool
  | [] => true
  | Event.started r :: Event.requested _ :: Event.finished r2 _ :: rest =>
      (r == r2) && wellBracketed rest
  | _ => false

/-- Environment in which every fetch succeeds with empty content. -/
def envAllOk : Env := fun _ => FetchOutcome.ok []

/-- Environment in which every fetch fails with a network error. -/
def envAllFail : Env := fun _ => FetchOutcome.fail "network error" none

/-- Environment in which only the first record fails. -/
def envFirstFails : Env := fun r =>
  if r.id = "24EMP001" then FetchOutcome.fail "HTTP Error 403" none
  else FetchOutcome.ok [7]

/-- The first record of the fixed list. -/
def emp1 : Record :=
  ⟨"24EMP001", "John Smith",
    "https://images.unsplash.com/photo-1560250097-0b93528c311a?w=800&h=800&fit=crop&q=80"⟩

/-- The archive entries produced when every fetch succeeds with empty
content. -/
def zipAllOk : List (String × Bytes) :=
  [("24EMP001.jpg", []), ("24EMP002.jpg", []), ("24EMP003.jpg", []),
   ("24EMP004.jpg", []), ("15EMP005.jpg", []), ("15EMP006.jpg", []),
   ("22EMP007.jpg", []), ("22EMP008.jpg", []), ("23EMP009.jpg", []),
   ("23EMP010.jpg", [])]

/-- A scratch directory holding two files, for the cleanup scenarios. -/
def fsTwoFiles : FS := ⟨true, [("a", []), ("b", [])], none⟩

/-- Unlink oracle that can delete only the file named `a`. -/
def unlinkOnlyA : String → Bool := fun s => s == "a"

theorem attempt_downloaded (env : Env) (st : DLState) (r : Record) :
    (attemptDownload env st r).downloaded
      = st.downloaded ++ (if fetchOk (env r) then [filePathOf r] else []) := by
  cases henv : env r <;> simp [attemptDownload, henv, fetchOk, filePathOf]

theorem attempt_log (env : Env) (st : DLState) (r : Record) :
    (attemptDownload env st r).log = st.log ++ logOf env r := by
  cases henv : env r <;> simp [attemptDownload, henv, logOf]

theorem attempt_trace (env : Env) (st : DLState) (r : Record) :
    (attemptDownload env st r).trace = st.trace ++ traceOf env r := by
  cases henv : env r <;> simp [attemptDownload, henv, traceOf, fetchOk]

theorem attempt_zipFile (env : Env) (st : DLState) (r : Record) :
    (attemptDownload env st r).fs.zipFile = st.fs.zipFile := by
  cases henv : env r <;> simp [attemptDownload, henv, fsWrite]
  case fail m junk => cases junk <;> simp [fsWrite]

theorem attempt_dirExists (env : Env) (st : DLState) (r : Record) :
    (attemptDownload env st r).fs.tempDirExists = st.fs.tempDirExists := by
  cases henv : env r <;> simp [attemptDownload, henv, fsWrite]
  case fail m junk => cases junk <;> simp [fsWrite]

theorem dlOf_cons (env : Env) (r : Record) (rs : List Record) :
    dlOf env (r :: rs)
      = (if fetchOk (env r) then [filePathOf r] else []) ++ dlOf env rs := by
  cases h : fetchOk (env r) <;> simp [dlOf, List.filterMap_cons, h]

theorem runDownloads_downloaded (env : Env) (l : List Record) :
    ∀ st : DLState,
      (runDownloads env l st).downloaded = st.downloaded ++ dlOf env l := by
  induction l with
  | nil => intro st; simp [runDownloads, dlOf]
  | cons r rs ih =>
      intro st
      rw [runDownloads, ih, attempt_downloaded, dlOf_cons, List.append_assoc]

theorem runDownloads_log (env : Env) (l : List Record) :
    ∀ st : DLState,
      (runDownloads env l st).log = st.log ++ concatMap (logOf env) l := by
  induction l with
  | nil => intro st; simp [runDownloads, concatMap]
  | cons r rs ih =>
      intro st
      rw [runDownloads, ih, attempt_log, concatMap, List.append_assoc]

theorem runDownloads_trace (env : Env) (l : List Record) :
    ∀ st : DLState,
      (runDownloads env l st).trace = st.trace ++ concatMap (traceOf env) l := by
  induction l with
  | nil => intro st; simp [runDownloads, concatMap]
  | cons r rs ih =>
      intro st
      rw [runDownloads, ih, attempt_trace, concatMap, List.append_assoc]

theorem runDownloads_zipFile (env : Env) (l : List Record) :
    ∀ st : DLState, (runDownloads env l st).fs.zipFile = st.fs.zipFile := by
  induction l with
  | nil => intro st; simp [runDownloads]
  | cons r rs ih => intro st; rw [runDownloads, ih, attempt_zipFile]

theorem runDownloads_dirExists (env : Env) (l : List Record) :
    ∀ st : DLState,
      (runDownloads env l st).fs.tempDirExists = st.fs.tempDirExists := by
  induction l with
  | nil => intro st; simp [runDownloads]
  | cons r rs ih => intro st; rw [runDownloads, ih, attempt_dirExists]

theorem dlOf_eq_map_filter (env : Env) (l : List Record) :
    dlOf env l = (l.filter (fun r => fetchOk (env r))).map filePathOf := by
  induction l with
  | nil => simp [dlOf]
  | cons r rs ih =>
      rw [dlOf_cons]
      cases h : fetchOk (env r) <;> simp [List.filter_cons, h, ih]

theorem download_images_downloaded (env : Env) (fs0 : FS) :
    (download_images env fs0).downloaded = (successes env).map filePathOf := by
  rw [download_images, runDownloads_downloaded, dlOf_eq_map_filter]
  rfl

theorem download_images_log (env : Env) (fs0 : FS) :
    (download_images env fs0).log = concatMap (logOf env) EMPLOYEES := by
  rw [download_images, runDownloads_log]
  rfl

theorem download_images_trace (env : Env) (fs0 : FS) :
    (download_images env fs0).trace = concatMap (traceOf env) EMPLOYEES := by
  rw [download_images, runDownloads_trace]
  rfl

theorem download_images_zipFile (env : Env) (fs0 : FS) :
    (download_images env fs0).fs.zipFile = fs0.zipFile := by
  rw [download_images, runDownloads_zipFile]

theorem download_images_dirExists (env : Env) (fs0 : FS) :
    (download_images env fs0).fs.tempDirExists = true := by
  rw [download_images, runDownloads_dirExists]

theorem mem_concatMap {α β : Type} (f : α → List β) (l : List α) (b : β) :
    b ∈ concatMap f l ↔ ∃ x ∈ l, b ∈ f x := by
  induction l with
  | nil => simp [concatMap]
  | cons x xs ih => simp [concatMap, ih]

theorem mem_successes (env : Env) (r : Record) :
    r ∈ successes env ↔ r ∈ EMPLOYEES ∧ fetchOk (env r) = true := by
  simp [successes, List.mem_filter]

/-! ### Helper characterizations of packaging, cleanup and the driver -/

theorem create_zip_of_empty (fs : FS) : create_zip [] fs = (fs, [noImagesMsg]) := rfl

theorem create_zip_of_ne (dl : List String) (fs : FS) (h : dl ≠ []) :
    create_zip dl fs
      = ({ fs with zipFile := some (dl.map
              (fun p => (pathBasename p, (lookupFile fs p).getD []))) },
         [creatingZipMsg]
           ++ dl.map (fun p => addedMsg (pathBasename p))
           ++ [zipDoneMsg, totalMsg dl.length EMPLOYEES.length]) := by
  rw [create_zip, if_neg]
  simp [List.isEmpty_iff, h]

theorem create_zip_tempFiles (dl : List String) (fs : FS) :
    (create_zip dl fs).1.tempFiles = fs.tempFiles := by
  rw [create_zip]
  split <;> rfl

theorem create_zip_dirExists (dl : List String) (fs : FS) :
    (create_zip dl fs).1.tempDirExists = fs.tempDirExists := by
  rw [create_zip]
  split <;> rfl

theorem deleteFiles_of_all (u : String → Bool) :
    ∀ l : List (String × Bytes), (∀ x ∈ l, u x.1 = true) →
      deleteFiles u l = (none, []) := by
  intro l
  induction l with
  | nil => intro _; rfl
  | cons x xs ih =>
      intro hall
      obtain ⟨f, b⟩ := x
      rw [deleteFiles, if_pos (hall _ (List.mem_cons_self _ _))]
      exact ih (fun y hy => hall y (List.mem_cons_of_mem _ hy))

theorem deleteFiles_first_fail (u : String → Bool) (f : String) (b : Bytes)
    (post : List (String × Bytes)) (hf : u f = false) :
    ∀ pre : List (String × Bytes), (∀ x ∈ pre, u x.1 = true) →
      deleteFiles u (pre ++ (f, b) :: post) = (some f, (f, b) :: post) := by
  intro pre
  induction pre with
  | nil =>
      intro _
      simp only [List.nil_append, deleteFiles, hf]
      rfl
  | cons x xs ih =>
      intro hpre
      obtain ⟨g, c⟩ := x
      rw [List.cons_append, deleteFiles,
        if_pos (hpre _ (List.mem_cons_self _ _))]
      exact ih (fun y hy => hpre y (List.mem_cons_of_mem _ hy))

theorem cleanup_of_all_ok (u : String → Bool) (fs : FS)
    (hall : ∀ x ∈ fs.tempFiles, u x.1 = true) :
    cleanup u true fs
      = ({ fs with tempFiles := [], tempDirExists := false },
         [cleaningMsg, cleanupDoneMsg]) := by
  rw [cleanup, deleteFiles_of_all u _ hall]
  rfl

theorem mainFn_of_empty (env : Env) (u : String → Bool) (rd : Bool)
    (h : successes env = []) :
    mainFn env u rd none
      = ⟨(download_images env emptyFS).fs,
         (download_images env emptyFS).log ++ [failedAllMsg],
         .earlyReturn⟩ := by
  have hdl : (download_images env emptyFS).downloaded = [] := by
    rw [download_images_downloaded, h]
    rfl
  rw [mainFn, phasesBody]
  simp only [raiseAt, hdl, List.isEmpty_nil, if_pos]

theorem mainFn_of_ne (env : Env) (u : String → Bool) (rd : Bool)
    (h : successes env ≠ []) :
    mainFn env u rd none
      = (let st := download_images env emptyFS
         let z := create_zip st.downloaded st.fs
         let c := cleanup u rd z.1
         ⟨c.1, st.log ++ z.2 ++ c.2, .completed⟩) := by
  have hdl : (download_images env emptyFS).downloaded.isEmpty = false := by
    rw [download_images_downloaded]
    simp [List.isEmpty_iff, h]
  rw [mainFn, phasesBody]
  simp [raiseAt, hdl]

/-! ### Concrete facts about the fixed record list -/

theorem employees_basename_eq :
    ∀ r ∈ EMPLOYEES, pathBasename (filePathOf r) = r.id ++ ".jpg" := by decide

theorem employees_name_noslash :
    ∀ r ∈ EMPLOYEES, noDirComponent (r.id ++ ".jpg") = true := by decide

theorem employees_jpgnames_nodup :
    (EMPLOYEES.map (fun r => r.id ++ ".jpg")).Nodup := by decide

theorem employees_paths_nodup : (EMPLOYEES.map filePathOf).Nodup := by decide

theorem employees_path_inj :
    ∀ r ∈ EMPLOYEES, ∀ r2 ∈ EMPLOYEES, filePathOf r = filePathOf r2 → r = r2 := by
  decide

theorem employees_length : EMPLOYEES.length = 10 := by decide

/-! ### Sequencing of the fetch trace -/

theorem wellBracketed_concatMap (env : Env) (l : List Record) :
    wellBracketed (concatMap (traceOf env) l) = true := by
  induction l with
  | nil => rfl
  | cons r rs ih => simp [concatMap, traceOf, wellBracketed, ih]

/-! ### Runs with an injected exception -/

theorem downloaded_isEmpty_false (env : Env) (h : successes env ≠ []) :
    (download_images env emptyFS).downloaded.isEmpty = false := by
  rw [download_images_downloaded]
  simp [List.isEmpty_iff, h]

theorem phasesBody_raise_fetch (env : Env) (u : String → Bool) (rd : Bool)
    (e : PyExc) :
    phasesBody env u rd (some (.fetchPhase, e)) = .error (e, emptyFS, []) := rfl

theorem phasesBody_raise_package (env : Env) (u : String → Bool) (rd : Bool)
    (e : PyExc) (h : successes env ≠ []) :
    phasesBody env u rd (some (.packagePhase, e))
      = .error (e, (download_images env emptyFS).fs,
                (download_images env emptyFS).log) := by
  rw [phasesBody]
  simp [raiseAt, downloaded_isEmpty_false env h]

theorem phasesBody_raise_cleanup (env : Env) (u : String → Bool) (rd : Bool)
    (e : PyExc) (h : successes env ≠ []) :
    phasesBody env u rd (some (.cleanupPhase, e))
      = .error (e,
          (create_zip (download_images env emptyFS).downloaded
            (download_images env emptyFS).fs).1,
          (download_images env emptyFS).log
            ++ (create_zip (download_images env emptyFS).downloaded
                  (download_images env emptyFS).fs).2) := by
  rw [phasesBody]
  simp [raiseAt, downloaded_isEmpty_false env h]

/-! ### Claims -/

/-- Claim C5: the fetch phase returns the list of exactly the records
whose download fully succeeded, in order, each paired (via its path)
with where it was saved; records that failed are absent from the list,
so nothing partial is ever mistaken for a success. -/
theorem fetch_returns_exactly_successes (env : Env) (fs0 : FS) :
    (download_images env fs0).downloaded = (successes env).map filePathOf
    ∧ ∀ r ∈ EMPLOYEES, fetchOk (env r) = false →
        filePathOf r ∉ (download_images env fs0).downloaded := by
  refine ⟨download_images_downloaded env fs0, ?_⟩
  intro r hr hfail hmem
  rw [download_images_downloaded] at hmem
  obtain ⟨r2, hr2s, heq⟩ := List.mem_map.mp hmem
  obtain ⟨hr2, hok⟩ := (mem_successes env r2).mp hr2s
  rw [employees_path_inj r2 hr2 r hr heq] at hok
  simp [hok] at hfail

/-- Witness for C5: with only the first record failing, the returned
list is exactly the successful records and the failed path is absent. -/
theorem fetch_returns_exactly_successes_witness :
    (download_images envFirstFails emptyFS).downloaded
        = (successes envFirstFails).map filePathOf
    ∧ filePathOf emp1 ∉ (download_images envFirstFails emptyFS).downloaded :=
  ⟨(fetch_returns_exactly_successes envFirstFails emptyFS).1,
   (fetch_returns_exactly_successes envFirstFails emptyFS).2 emp1
     (by decide) (by decide)⟩

/-- Claim C7: execution is fully sequential: the event trace is exactly
one consecutive started-requested-finished block per record in list
order, so each download finishes (with success or failure) before the
next one starts, with no overlap. -/
theorem downloads_fully_sequential (env : Env) (fs0 : FS) :
    (download_images env fs0).trace = concatMap (traceOf env) EMPLOYEES
    ∧ wellBracketed (download_images env fs0).trace = true := by
  refine ⟨download_images_trace env fs0, ?_⟩
  rw [download_images_trace]
  exact wellBracketed_concatMap env EMPLOYEES

/-- Claim C8: every record has an HTTP request issued for its source
URL, and every request appearing in the trace carries exactly the
header `User-Agent: Mozilla/5.0`. -/
theorem request_carries_user_agent (env : Env) (fs0 : FS) :
    (∀ r ∈ EMPLOYEES,
        Event.requested (mkRequest r.url) ∈ (download_images env fs0).trace)
    ∧ ∀ q : HttpRequest,
        Event.requested q ∈ (download_images env fs0).trace →
          q.headers = [("User-Agent", "Mozilla/5.0")] := by
  constructor
  · intro r hr
    rw [download_images_trace]
    exact (mem_concatMap _ _ _).mpr ⟨r, hr, by simp [traceOf]⟩
  · intro q hq
    rw [download_images_trace] at hq
    obtain ⟨r, hr, hmem⟩ := (mem_concatMap _ _ _).mp hq
    simp only [traceOf, List.mem_cons, List.mem_singleton] at hmem
    rcases hmem with h1 | h2 | h3 | h4
    · exact absurd h1 (by simp)
    · rw [Event.requested.injEq] at h2
      rw [h2]
      rfl
    · exact absurd h3 (by simp)
    · exact absurd h4 (by simp)

/-- Witness for C8: the first record's request is in the trace of an
all-success run and carries the user-agent header. -/
theorem request_carries_user_agent_witness :
    emp1 ∈ EMPLOYEES
    ∧ Event.requested (mkRequest emp1.url)
        ∈ (download_images envAllOk emptyFS).trace
    ∧ (mkRequest emp1.url).headers = [("User-Agent", "Mozilla/5.0")] :=
  have h := request_carries_user_agent envAllOk emptyFS
  ⟨by decide, h.1 emp1 (by decide), h.2 (mkRequest emp1.url) (h.1 emp1 (by decide))⟩

/-- Claim C3: a fetch failure for a record is reported in the log, the
record is still attempted like every other, and whether a record ends
up in the success list depends only on its own outcome, so no single
failure aborts the batch or affects any other record. -/
theorem per_record_failure_reported_isolated (env : Env) (fs0 : FS)
    (r : Record) (hr : r ∈ EMPLOYEES) :
    (∀ m junk, env r = FetchOutcome.fail m junk →
        errorMsg r m ∈ (download_images env fs0).log)
    ∧ Event.started r ∈ (download_images env fs0).trace
    ∧ (filePathOf r ∈ (download_images env fs0).downloaded
        ↔ fetchOk (env r) = true) := by
  refine ⟨?_, ?_, ?_, ?_⟩
  · intro m junk he
    rw [download_images_log]
    refine (mem_concatMap _ _ _).mpr ⟨r, hr, ?_⟩
    simp [logOf, he]
  · rw [download_images_trace]
    exact (mem_concatMap _ _ _).mpr ⟨r, hr, by simp [traceOf]⟩
  · intro hmem
    rw [download_images_downloaded] at hmem
    obtain ⟨r2, hr2s, heq⟩ := List.mem_map.mp hmem
    obtain ⟨hr2, hok⟩ := (mem_successes env r2).mp hr2s
    rwa [employees_path_inj r2 hr2 r hr heq] at hok
  · intro hok
    rw [download_images_downloaded]
    exact List.mem_map.mpr ⟨r, (mem_successes env r).mpr ⟨hr, hok⟩, rfl⟩

/-- Witness for C3: the first record fails with an HTTP error, its
failure is reported, it was attempted, and its absence from the success
list matches its own outcome. -/
theorem per_record_failure_witness :
    emp1 ∈ EMPLOYEES
    ∧ errorMsg emp1 "HTTP Error 403"
        ∈ (download_images envFirstFails emptyFS).log
    ∧ Event.started emp1 ∈ (download_images envFirstFails emptyFS).trace
    ∧ (filePathOf emp1 ∈ (download_images envFirstFails emptyFS).downloaded
        ↔ fetchOk (envFirstFails emp1) = true) :=
  have h := per_record_failure_reported_isolated envFirstFails emptyFS emp1
    (by decide)
  ⟨by decide, h.1 "HTTP Error 403" none (by decide), h.2.1, h.2.2⟩

/-- Claim C2: whenever the archive is produced, its entries are exactly
one per successfully downloaded record, in order, named
`<identifier>.jpg` with no directory component. -/
theorem archive_entries_named_by_identifier (env : Env)
    (es : List (String × Bytes))
    (h : (create_zip (download_images env emptyFS).downloaded
            (download_images env emptyFS).fs).1.zipFile = some es) :
    es.map Prod.fst = (successes env).map (fun r => r.id ++ ".jpg")
    ∧ (es.map Prod.fst).Nodup
    ∧ ∀ n ∈ es.map Prod.fst, noDirComponent n = true := by
  by_cases hs : successes env = []
  · exfalso
    have hdl : (download_images env emptyFS).downloaded = [] := by
      rw [download_images_downloaded, hs]
      rfl
    rw [hdl, create_zip_of_empty, download_images_zipFile] at h
    simp [emptyFS] at h
  · have hdl_ne : (download_images env emptyFS).downloaded ≠ [] := by
      rw [download_images_downloaded]
      simp [hs]
    rw [create_zip_of_ne _ _ hdl_ne] at h
    have hes : es = (download_images env emptyFS).downloaded.map
        (fun p => (pathBasename p,
          ((lookupFile (download_images env emptyFS).fs p).getD []))) := by
      simpa using h.symm
    have hnames : es.map Prod.fst
        = (successes env).map (fun r => r.id ++ ".jpg") := by
      rw [hes, download_images_downloaded, List.map_map, List.map_map]
      refine List.map_congr_left (fun r hrs => ?_)
      have hr : r ∈ EMPLOYEES := ((mem_successes env r).mp hrs).1
      simp [Function.comp, employees_basename_eq r hr]
    refine ⟨hnames, ?_, ?_⟩
    · rw [hnames]
      exact List.Nodup.sublist
        (List.Sublist.map _ (List.filter_sublist EMPLOYEES))
        employees_jpgnames_nodup
    · intro n hn
      rw [hnames] at hn
      obtain ⟨r, hrs, heq⟩ := List.mem_map.mp hn
      rw [← heq]
      exact employees_name_noslash r ((mem_successes env r).mp hrs).1

/-- Witness for C2: the all-success run produces the ten expected
entries, correctly named. -/
theorem archive_entries_witness :
    (create_zip (download_images envAllOk emptyFS).downloaded
        (download_images envAllOk emptyFS).fs).1.zipFile = some zipAllOk
    ∧ (zipAllOk.map Prod.fst
        = (successes envAllOk).map (fun r => r.id ++ ".jpg")
       ∧ (zipAllOk.map Prod.fst).Nodup
       ∧ ∀ n ∈ zipAllOk.map Prod.fst, noDirComponent n = true) :=
  ⟨by decide,
   archive_entries_named_by_identifier envAllOk zipAllOk (by decide)⟩

/-- Claim C4: when zero records succeed, no archive is created, the
outcome is the reported early return, and no exception escapes. -/
theorem zero_success_no_archive_clean (env : Env) (u : String → Bool)
    (rd : Bool) (h : successes env = []) :
    (mainFn env u rd none).fs.zipFile = none
    ∧ failedAllMsg ∈ (mainFn env u rd none).log
    ∧ (mainFn env u rd none).outcome = MainOutcome.earlyReturn := by
  rw [mainFn_of_empty env u rd h]
  refine ⟨?_, ?_, rfl⟩
  · exact download_images_zipFile env emptyFS
  · simp

/-- Witness for C4: the all-fail run creates no archive and reports the
zero-success outcome. -/
theorem zero_success_witness :
    successes envAllFail = []
    ∧ (mainFn envAllFail (fun _ => true) true none).fs.zipFile = none
    ∧ failedAllMsg ∈ (mainFn envAllFail (fun _ => true) true none).log
    ∧ (mainFn envAllFail (fun _ => true) true none).outcome
        = MainOutcome.earlyReturn :=
  ⟨by decide,
   zero_success_no_archive_clean envAllFail (fun _ => true) true (by decide)⟩

/-- Counterexample to claim C1 as stated: in the run where every fetch
fails, the fetch phase has run and the run completes (early return, no
crash), yet cleanup never runs and the scratch directory still exists
afterwards. -/
theorem cleanup_skipped_on_zero_success :
    (mainFn envAllFail (fun _ => true) true none).fs.tempDirExists = true
    ∧ (mainFn envAllFail (fun _ => true) true none).outcome
        = MainOutcome.earlyReturn
    ∧ cleaningMsg ∉ (mainFn envAllFail (fun _ => true) true none).log := by
  decide

/-- Claim C1 (amended): cleanup runs unconditionally after packaging
whenever packaging is reached, i.e. whenever at least one record
succeeded; in such runs (with deletions succeeding) the scratch
directory no longer exists afterwards. When zero records succeed, main
returns early before packaging and cleanup does not run. -/
theorem cleanup_runs_when_any_success (env : Env)
    (h : successes env ≠ []) :
    (mainFn env (fun _ => true) true none).outcome = MainOutcome.completed
    ∧ cleaningMsg ∈ (mainFn env (fun _ => true) true none).log
    ∧ (mainFn env (fun _ => true) true none).fs.tempDirExists = false
    ∧ (mainFn env (fun _ => true) true none).fs.tempFiles = [] := by
  rw [mainFn_of_ne env _ _ h]
  have hclean := cleanup_of_all_ok (fun _ => true)
    (create_zip (download_images env emptyFS).downloaded
      (download_images env emptyFS).fs).1
    (fun x _ => rfl)
  simp [hclean]

/-- Witness for C1 (amended): a fully successful run ends with cleanup
having removed the scratch directory. -/
theorem cleanup_runs_witness :
    successes envAllOk ≠ []
    ∧ (mainFn envAllOk (fun _ => true) true none).outcome
        = MainOutcome.completed
    ∧ cleaningMsg ∈ (mainFn envAllOk (fun _ => true) true none).log
    ∧ (mainFn envAllOk (fun _ => true) true none).fs.tempDirExists = false
    ∧ (mainFn envAllOk (fun _ => true) true none).fs.tempFiles = [] :=
  ⟨by decide, cleanup_runs_when_any_success envAllOk (by decide)⟩

/-- Claim C6: an interruption in any phase that is actually reached is
caught and reported distinctly (as an interruption, not an error), no
later phase executes, and any other exception is caught and reported
with its message, the run ending cleanly in both cases. -/
theorem top_level_exception_handling (env : Env) (u : String → Bool)
    (rd : Bool) (p : Phase) (m : String)
    (h : p = Phase.fetchPhase ∨ successes env ≠ []) :
    (mainFn env u rd (some (p, PyExc.keyboardInterrupt))).outcome
        = MainOutcome.interrupted
    ∧ cancelledMsg ∈ (mainFn env u rd (some (p, PyExc.keyboardInterrupt))).log
    ∧ (mainFn env u rd (some (p, PyExc.otherExc m))).outcome
        = MainOutcome.caught m
    ∧ topErrorMsg m ∈ (mainFn env u rd (some (p, PyExc.otherExc m))).log
    ∧ (mainFn env u rd (some (Phase.fetchPhase, PyExc.keyboardInterrupt))).fs
        = emptyFS
    ∧ (p = Phase.packagePhase →
        (mainFn env u rd (some (p, PyExc.keyboardInterrupt))).fs.zipFile = none
        ∧ (mainFn env u rd
            (some (p, PyExc.keyboardInterrupt))).fs.tempDirExists = true)
    ∧ (p = Phase.cleanupPhase →
        (mainFn env u rd
          (some (p, PyExc.keyboardInterrupt))).fs.tempDirExists = true) := by
  have hfk : mainFn env u rd (some (Phase.fetchPhase, PyExc.keyboardInterrupt))
      = ⟨emptyFS, [cancelledMsg], MainOutcome.interrupted⟩ := rfl
  cases p with
  | fetchPhase =>
      have ho : mainFn env u rd (some (Phase.fetchPhase, PyExc.otherExc m))
          = ⟨emptyFS, [topErrorMsg m], MainOutcome.caught m⟩ := rfl
      exact ⟨by simp [hfk], by simp [hfk], by simp [ho], by simp [ho],
        by simp [hfk], fun hp => absurd hp (by decide),
        fun hp => absurd hp (by decide)⟩
  | packagePhase =>
      have hs : successes env ≠ [] := by
        rcases h with h1 | h2
        · exact absurd h1 (by decide)
        · exact h2
      have hk : mainFn env u rd
            (some (Phase.packagePhase, PyExc.keyboardInterrupt))
          = ⟨(download_images env emptyFS).fs,
             (download_images env emptyFS).log ++ [cancelledMsg],
             MainOutcome.interrupted⟩ := by
        rw [mainFn, phasesBody_raise_package env u rd _ hs]
      have ho : mainFn env u rd (some (Phase.packagePhase, PyExc.otherExc m))
          = ⟨(download_images env emptyFS).fs,
             (download_images env emptyFS).log ++ [topErrorMsg m],
             MainOutcome.caught m⟩ := by
        rw [mainFn, phasesBody_raise_package env u rd _ hs]
      refine ⟨by simp [hk], by simp [hk], by simp [ho], by simp [ho],
        by simp [hfk], fun hp => ⟨?_, ?_⟩,
        fun hp => absurd hp (by decide)⟩
      · rw [hk]
        exact download_images_zipFile env emptyFS
      · rw [hk]
        exact download_images_dirExists env emptyFS
  | cleanupPhase =>
      have hs : successes env ≠ [] := by
        rcases h with h1 | h2
        · exact absurd h1 (by decide)
        · exact h2
      have hk : mainFn env u rd
            (some (Phase.cleanupPhase, PyExc.keyboardInterrupt))
          = ⟨(create_zip (download_images env emptyFS).downloaded
                (download_images env emptyFS).fs).1,
             (download_images env emptyFS).log
               ++ (create_zip (download_images env emptyFS).downloaded
                     (download_images env emptyFS).fs).2
               ++ [cancelledMsg],
             MainOutcome.interrupted⟩ := by
        rw [mainFn, phasesBody_raise_cleanup env u rd _ hs]
      have ho : mainFn env u rd (some (Phase.cleanupPhase, PyExc.otherExc m))
          = ⟨(create_zip (download_images env emptyFS).downloaded
                (download_images env emptyFS).fs).1,
             (download_images env emptyFS).log
               ++ (create_zip (download_images env emptyFS).downloaded
                     (download_images env emptyFS).fs).2
               ++ [topErrorMsg m],
             MainOutcome.caught m⟩ := by
        rw [mainFn, phasesBody_raise_cleanup env u rd _ hs]
      refine ⟨by simp [hk], by simp [hk], by simp [ho], by simp [ho],
        by simp [hfk], fun hp => absurd hp (by decide), fun hp => ?_⟩
      rw [hk]
      rw [create_zip_dirExists]
      exact download_images_dirExists env emptyFS

/-- Witness for C6: an interruption injected at the packaging phase of
an otherwise fully successful run is reported as an interruption. -/
theorem top_level_exception_witness :
    (Phase.packagePhase = Phase.fetchPhase ∨ successes envAllOk ≠ [])
    ∧ (mainFn envAllOk (fun _ => true) true
        (some (Phase.packagePhase, PyExc.keyboardInterrupt))).outcome
      = MainOutcome.interrupted :=
  ⟨Or.inr (by decide),
   (top_level_exception_handling envAllOk (fun _ => true) true
     Phase.packagePhase "boom" (Or.inr (by decide))).1⟩

/-- Claim C9: the success list is a subsequence of the record list's
paths (order preserved), has no duplicates and at most 10 entries, and
the archive entries, when produced, are written in exactly that order. -/
theorem success_list_is_ordered_subsequence (env : Env) :
    List.Sublist (download_images env emptyFS).downloaded
      (EMPLOYEES.map filePathOf)
    ∧ (download_images env emptyFS).downloaded.length ≤ 10
    ∧ (download_images env emptyFS).downloaded.Nodup
    ∧ ((create_zip (download_images env emptyFS).downloaded
          (download_images env emptyFS).fs).1.zipFile.map
            (fun es => es.map Prod.fst))
        = (if (download_images env emptyFS).downloaded.isEmpty then none
           else some ((download_images env emptyFS).downloaded.map
                        pathBasename)) := by
  have hdl := download_images_downloaded env emptyFS
  have hsub : List.Sublist (download_images env emptyFS).downloaded
      (EMPLOYEES.map filePathOf) := by
    rw [hdl]
    exact List.Sublist.map filePathOf (List.filter_sublist EMPLOYEES)
  refine ⟨hsub, ?_, ?_, ?_⟩
  · have hle := List.Sublist.length_le hsub
    simpa [List.length_map, employees_length] using hle
  · exact List.Nodup.sublist hsub employees_paths_nodup
  · by_cases he : (download_images env emptyFS).downloaded = []
    · rw [he, create_zip_of_empty, download_images_zipFile]
      simp [emptyFS]
    · rw [create_zip_of_ne _ _ he]
      simp [List.isEmpty_iff, he, List.map_map, Function.comp]

/-- Claim C10: cleanup deletes files in order up to the first failing
unlink; the failing file, everything after it and the directory itself
all remain, a warning is reported, and cleanup returns normally. -/
theorem cleanup_stops_at_first_failure (u : String → Bool) (rd : Bool)
    (fs : FS) (pre post : List (String × Bytes)) (f : String) (b : Bytes)
    (hsplit : fs.tempFiles = pre ++ (f, b) :: post)
    (hpre : ∀ x ∈ pre, u x.1 = true) (hf : u f = false) :
    (cleanup u rd fs).1.tempFiles = (f, b) :: post
    ∧ (cleanup u rd fs).1.tempDirExists = fs.tempDirExists
    ∧ (cleanup u rd fs).1.zipFile = fs.zipFile
    ∧ (cleanup u rd fs).2
        = [cleaningMsg, warnMsg ("unlink failed: " ++ f)] := by
  have hd : deleteFiles u fs.tempFiles = (some f, (f, b) :: post) := by
    rw [hsplit]
    exact deleteFiles_first_fail u f b post hf pre hpre
  rw [cleanup, hd]
  exact ⟨rfl, rfl, rfl, rfl⟩

/-- Witness for C10: with two scratch files of which only the first can
be unlinked, cleanup leaves the second file and the directory in place
and reports a warning. -/
theorem cleanup_stops_witness :
    fsTwoFiles.tempFiles = [("a", ([] : Bytes))] ++ ("b", ([] : Bytes)) :: []
    ∧ (cleanup unlinkOnlyA true fsTwoFiles).1.tempFiles
        = [("b", ([] : Bytes))]
    ∧ (cleanup unlinkOnlyA true fsTwoFiles).1.tempDirExists = true
    ∧ (cleanup unlinkOnlyA true fsTwoFiles).2
        = [cleaningMsg, warnMsg ("unlink failed: " ++ "b")] :=
  have h := cleanup_stops_at_first_failure unlinkOnlyA true fsTwoFiles
    [("a", [])] [] "b" [] (by decide) (by decide) (by decide)
  ⟨by decide, h.1, h.2.1, h.2.2.2⟩
